import Mathlib

/-!
Verification development for the metaspace excerpt
(`src/hotspot/share/memory/metaspace/msStatistics.hpp` and
`src/hotspot/share/memory/metaspace/metaspace_test.cpp`).

Pure data structures and operations visible in the sources are embedded
directly; components of the repository that are only declared or called in
the excerpt (CommitLimiter, MetaspaceContext internals, ChunkManager,
MetaspaceArena, the statistics producers) are modelled from the
specification, each such definition carrying a doc comment starting with
`Modelled from the spec:`.

Machine integers: `size_t` and `uintx` fields are embedded as `Nat` whose
stored values are below `2 ^ 64`, with additions reduced `% 2 ^ 64` where the
C++ code performs wrapping unsigned arithmetic; `int` fields are embedded as
`Int` (signed overflow is undefined behaviour in the source, so plain integer
addition models the defined executions).
-/

namespace Metaspace

/-- Modulus of the C++ `size_t` / `uintx` type (64-bit unsigned). -/
def sizeTMod : Nat := 2 ^ 64

/-- The C++ constant `max_uintx` (`2 ^ 64 - 1`), used by
`MetaspaceTestContext` to encode "no commit limit". -/
def max_uintx : Nat := 2 ^ 64 - 1

/-- Modelled from the spec: `chunklevel::NUM_CHUNK_LEVELS` comes from
`msChunklevel.hpp`, which is not in the repository excerpt; the spec fixes
only "a small fixed number of discrete size classes". We use 14 levels. -/
def NUM_CHUNK_LEVELS : Nat := 14

/-! InUseChunkStats (msStatistics.hpp lines 70-114) -/

/-- Embeds `struct InUseChunkStats`: per-level statistics for chunks in use.
`num` is a C++ `int`; the word counts are `size_t`. -/
@[ext]
structure InUseChunkStats where
  num : Int
  word_size : Nat
  committed_words : Nat
  used_words : Nat
  free_words : Nat
  waste_words : Nat
deriving DecidableEq, Repr

/-- Embeds the default constructor `InUseChunkStats()`: all fields zero. -/
def InUseChunkStats.init : InUseChunkStats :=
  { num := 0, word_size := 0, committed_words := 0,
    used_words := 0, free_words := 0, waste_words := 0 }

/-- Embeds `InUseChunkStats::add` (msStatistics.hpp lines 100-108): every
field is summed component-wise; `size_t` additions wrap modulo `2 ^ 64`. -/
def InUseChunkStats.add (s o : InUseChunkStats) : InUseChunkStats :=
  { num := s.num + o.num
    word_size := (s.word_size + o.word_size) % sizeTMod
    committed_words := (s.committed_words + o.committed_words) % sizeTMod
    used_words := (s.used_words + o.used_words) % sizeTMod
    free_words := (s.free_words + o.free_words) % sizeTMod
    waste_words := (s.waste_words + o.waste_words) % sizeTMod }

/-- All `size_t` fields hold representable 64-bit values. -/
def InUseChunkStats.sizeTValued (s : InUseChunkStats) : Prop :=
  s.word_size < sizeTMod ∧ s.committed_words < sizeTMod ∧
  s.used_words < sizeTMod ∧ s.free_words < sizeTMod ∧ s.waste_words < sizeTMod

instance (s : InUseChunkStats) : Decidable s.sizeTValued := by
  unfold InUseChunkStats.sizeTValued; infer_instance

/-- The statistics invariant stated by the spec and by the comment in
msStatistics.hpp lines 75-77: `committed = used + free + waste` and
`capacity = committed + uncommitted` (so `committed ≤ word_size`). -/
def InUseChunkStats.invariant (s : InUseChunkStats) : Prop :=
  s.committed_words = s.used_words + s.free_words + s.waste_words ∧
  s.committed_words ≤ s.word_size

instance (s : InUseChunkStats) : Decidable s.invariant := by
  unfold InUseChunkStats.invariant; infer_instance

/-! ArenaStats (msStatistics.hpp lines 117-138) -/

/-- Embeds `struct ArenaStats`: one `InUseChunkStats` per chunk level plus a
free-block count (`uintx`) and total free-block word size (`size_t`). -/
@[ext]
structure ArenaStats where
  stats : Fin NUM_CHUNK_LEVELS → InUseChunkStats
  free_blocks_num : Nat
  free_blocks_word_size : Nat

/-- Embeds the default constructor `ArenaStats()`: zero-initialised array and
zero free-block counters. -/
def ArenaStats.init : ArenaStats :=
  { stats := fun _ => InUseChunkStats.init
    free_blocks_num := 0
    free_blocks_word_size := 0 }

/-- Modelled from the spec: `ArenaStats::add` is declared in msStatistics.hpp
line 130 but defined in msStatistics.cpp, which is not in the repository
excerpt; per the spec, arena statistics are summed per chunk level, together
with the free-block count/size pair. -/
def ArenaStats.add (s o : ArenaStats) : ArenaStats :=
  { stats := fun i => (s.stats i).add (o.stats i)
    free_blocks_num := (s.free_blocks_num + o.free_blocks_num) % sizeTMod
    free_blocks_word_size :=
      (s.free_blocks_word_size + o.free_blocks_word_size) % sizeTMod }

/-- All stored fields of an `ArenaStats` are representable 64-bit values. -/
def ArenaStats.sizeTValued (a : ArenaStats) : Prop :=
  (∀ i, (a.stats i).sizeTValued) ∧
  a.free_blocks_num < sizeTMod ∧ a.free_blocks_word_size < sizeTMod

instance (a : ArenaStats) : Decidable a.sizeTValued := by
  unfold ArenaStats.sizeTValued; infer_instance

/-! ClmsStats (msStatistics.hpp lines 141-160) -/

/-- Embeds `struct ClmsStats`: paired non-class and class arena statistics. -/
@[ext]
structure ClmsStats where
  arena_stats_nonclass : ArenaStats
  arena_stats_class : ArenaStats

/-- Embeds the default constructor `ClmsStats()`. -/
def ClmsStats.init : ClmsStats :=
  { arena_stats_nonclass := ArenaStats.init
    arena_stats_class := ArenaStats.init }

/-- Embeds `ClmsStats::add` (msStatistics.hpp lines 148-151): adds the two
arena statistics component-wise. -/
def ClmsStats.add (s o : ClmsStats) : ClmsStats :=
  { arena_stats_nonclass := s.arena_stats_nonclass.add o.arena_stats_nonclass
    arena_stats_class := s.arena_stats_class.add o.arena_stats_class }

/-- Both halves of a `ClmsStats` are representable. -/
def ClmsStats.sizeTValued (c : ClmsStats) : Prop :=
  c.arena_stats_nonclass.sizeTValued ∧ c.arena_stats_class.sizeTValued

instance (c : ClmsStats) : Decidable c.sizeTValued := by
  unfold ClmsStats.sizeTValued; infer_instance

/-! Statistics producers (spec-modelled) -/

/-- Modelled from the spec: total number of words addressable by the 64-bit
virtual address space (`2 ^ 64` bytes at 8 bytes per word). Chunks are
disjoint regions of that address space, so the word sizes of the chunks
entering one aggregation sum to at most this bound. -/
def maxAddressSpaceWords : Nat := 2 ^ 61

/-- Modelled from the spec: the snapshot of a single in-use chunk taken by the
statistics producers (`MetaspaceArena::add_to_statistics` and friends are not
in the repository excerpt). Per the spec, the committed part of a chunk
splits exactly into used, free and waste words. -/
structure ChunkSnapshot where
  word_size : Nat
  used_words : Nat
  free_words : Nat
  waste_words : Nat
deriving DecidableEq, Repr

/-- Committed words of a chunk snapshot: used + free + waste. -/
def ChunkSnapshot.committed_words (c : ChunkSnapshot) : Nat :=
  c.used_words + c.free_words + c.waste_words

/-- Modelled from the spec: a well-formed chunk has
`used ≤ committed ≤ size-of(level)`. -/
def ChunkSnapshot.wf (c : ChunkSnapshot) : Prop :=
  c.committed_words ≤ c.word_size

instance (c : ChunkSnapshot) : Decidable c.wf := by
  unfold ChunkSnapshot.wf; infer_instance

/-- Modelled from the spec: the `InUseChunkStats` record contributed by one
chunk (`num = 1`, all word counts from the chunk). -/
def ChunkSnapshot.toStats (c : ChunkSnapshot) : InUseChunkStats :=
  { num := 1, word_size := c.word_size, committed_words := c.committed_words,
    used_words := c.used_words, free_words := c.free_words,
    waste_words := c.waste_words }

/-- Modelled from the spec: the statistics API produces an `InUseChunkStats`
value by starting from the zero-initialised record and `add`-ing the
snapshot of every chunk in the aggregated collection. -/
def aggregateStats (l : List ChunkSnapshot) : InUseChunkStats :=
  l.foldl (fun acc c => acc.add c.toStats) InUseChunkStats.init

/-! CommitLimiter (spec-modelled) and MetaspaceTestContext -/

/-- Modelled from the spec: CommitLimiter state is "a single counter of
committed words, a ceiling (unbounded if zero)". -/
structure CommitLimiter where
  committed_words : Nat
  cap : Nat
deriving DecidableEq, Repr

/-- Modelled from the spec: `try_commit(words) -> bool` checks
current-committed + words against the ceiling; on success increments and
returns true, else leaves state unchanged and returns false; a ceiling of
zero means unlimited. -/
def CommitLimiter.try_commit (cl : CommitLimiter) (words : Nat) :
    CommitLimiter × Bool :=
  if cl.cap = 0 ∨ cl.committed_words + words ≤ cl.cap then
    ({ cl with committed_words := cl.committed_words + words }, true)
  else (cl, false)

/-- One step of a `try_commit` sequence: thread the limiter state and
record whether every call so far succeeded. -/
def commitStep (st : CommitLimiter × Bool) (w : Nat) : CommitLimiter × Bool :=
  ((st.1.try_commit w).1, st.2 && (st.1.try_commit w).2)

/-- Runs a sequence of `try_commit` calls; returns the final limiter state
and whether every call in the sequence succeeded. -/
def CommitLimiter.runCommits (cl : CommitLimiter) (l : List Nat) :
    CommitLimiter × Bool :=
  l.foldl commitStep (cl, true)

/-- The C++ constant `BytesPerWord` on 64-bit platforms. -/
def BytesPerWord : Nat := 8

/-- Embeds `ReservedSpace rs(size, alignment, large)`: one OS reservation of
`size_bytes` bytes (metaspace_test.cpp line 74). -/
structure ReservedSpace where
  size_bytes : Nat
deriving DecidableEq, Repr

/-- Modelled from the spec: a MetaspaceContext is expandable or operates over
a fixed reservation; we record the mode and the word sizes of its
reservations (metaspaceContext.hpp is not in the repository excerpt). -/
structure MetaspaceContext where
  expandable : Bool
  reservations : List Nat
deriving DecidableEq, Repr

/-- Modelled from the spec: `MetaspaceContext::create_nonexpandable_context`
wraps the single caller-supplied reservation. -/
def MetaspaceContext.create_nonexpandable_context (rs : ReservedSpace) :
    MetaspaceContext :=
  { expandable := false, reservations := [rs.size_bytes / BytesPerWord] }

/-- Modelled from the spec: `MetaspaceContext::create_expandable_context`
starts with no reservation and appends reservations on demand. -/
def MetaspaceContext.create_expandable_context : MetaspaceContext :=
  { expandable := true, reservations := [] }

/-- Embeds the test context of metaspace_test.cpp lines 65-81: name, limits,
commit limiter and the wrapped context. -/
structure MetaspaceTestContext where
  name : String
  reserve_limit : Nat
  commit_limit : Nat
  commit_limiter : CommitLimiter
  context : MetaspaceContext

/-- Embeds `MetaspaceTestContext::MetaspaceTestContext`
(metaspace_test.cpp lines 65-81): the commit limiter gets ceiling
`max_uintx` when `commit_limit == 0` (comment: "no limit"), and the context
is non-expandable over a reservation of `reserve_limit * BytesPerWord` bytes
when `reserve_limit > 0`, else expandable. -/
def mkMetaspaceTestContext (name : String) (commit_limit reserve_limit : Nat) :
    MetaspaceTestContext :=
  { name := name
    reserve_limit := reserve_limit
    commit_limit := commit_limit
    commit_limiter :=
      { committed_words := 0
        cap := if commit_limit = 0 then max_uintx else commit_limit }
    context :=
      if reserve_limit > 0 then
        MetaspaceContext.create_nonexpandable_context
          ⟨reserve_limit * BytesPerWord⟩
      else
        MetaspaceContext.create_expandable_context }

/-! Non-expandable space exhaustion (spec-modelled) -/

/-- Modelled from the spec: the reservation/commit accounting of a
non-expandable context (VirtualSpaceManager and ChunkManager are not in the
repository excerpt): a single fixed reservation of `reserve_limit` words, a
running total of reserved words handed out as chunks, and the committed
words within them. -/
structure NonExpandableSpace where
  reserve_limit : Nat
  used_reserved_words : Nat
  committed_words : Nat
deriving DecidableEq, Repr

/-- A fresh non-expandable space over a reservation of `R` words. -/
def NonExpandableSpace.init (R : Nat) : NonExpandableSpace :=
  { reserve_limit := R, used_reserved_words := 0, committed_words := 0 }

/-- Modelled from the spec: a chunk request against a non-expandable context
succeeds exactly when the chunk still fits into the remaining reserved
space; on success the chunk is carved out and committed, on failure the
state is unchanged (requests exceeding remaining reserved space fail
permanently). -/
def NonExpandableSpace.request_chunk (sp : NonExpandableSpace)
    (word_size : Nat) : NonExpandableSpace × Bool :=
  if sp.used_reserved_words + word_size ≤ sp.reserve_limit then
    ({ sp with used_reserved_words := sp.used_reserved_words + word_size,
               committed_words := sp.committed_words + word_size }, true)
  else (sp, false)

/-- One step of a chunk-request sequence: thread the space state and record
whether every request so far succeeded. -/
def requestStep (st : NonExpandableSpace × Bool) (w : Nat) :
    NonExpandableSpace × Bool :=
  ((st.1.request_chunk w).1, st.2 && (st.1.request_chunk w).2)

/-- Runs a sequence of chunk requests; returns the final state and whether
every request succeeded. -/
def NonExpandableSpace.run (sp : NonExpandableSpace) (l : List Nat) :
    NonExpandableSpace × Bool :=
  l.foldl requestStep (sp, true)

/-! Buddy-style chunk split and merge (spec-modelled) -/

/-- The finest (highest-numbered) chunk level. -/
def HIGHEST_CHUNK_LEVEL : Nat := NUM_CHUNK_LEVELS - 1

/-- Modelled from the spec: base-two logarithm of the root chunk word size
(msChunklevel.hpp is not in the repository excerpt); level 0 is the root
chunk size and each subsequent level is half the previous. -/
def ROOT_CHUNK_EXP : Nat := 19

/-- Word size of a chunk of level `l`: half the size of the previous level. -/
def chunkWordSize (l : Nat) : Nat := 2 ^ (ROOT_CHUNK_EXP - l)

/-- Chunk states per the spec: `Free`, `InUse`, or `Split`. -/
inductive ChunkState where
  | Free : ChunkState
  | InUse : ChunkState
  | Split : ChunkState
deriving DecidableEq, Repr

/-- Modelled from the spec: a chunk is one contiguous region of virtual
address space with a level, a base address (in words) and a state. -/
structure Chunk where
  level : Nat
  base : Nat
  state : ChunkState
deriving DecidableEq, Repr

/-- Word size of a chunk, determined by its level. -/
def Chunk.word_size (c : Chunk) : Nat := chunkWordSize c.level

/-- One-past-the-end address of the range of a chunk, in words. -/
def Chunk.end_addr (c : Chunk) : Nat := c.base + c.word_size

/-- Modelled from the spec: a free chunk may be split into exactly two free
chunks of the next-finer level covering its two halves; chunks of the finest
level cannot be split. -/
def splitChunk (c : Chunk) : Option (Chunk × Chunk) :=
  if c.state = ChunkState.Free ∧ c.level < HIGHEST_CHUNK_LEVEL then
    some ({ level := c.level + 1, base := c.base, state := ChunkState.Free },
          { level := c.level + 1, base := c.base + chunkWordSize (c.level + 1),
            state := ChunkState.Free })
  else none

/-- Modelled from the spec: two adjacent same-level chunks merge into one
coarser free chunk only if both are free and buddy-aligned (the base of the left chunk
is aligned to the size of the coarser level). -/
def mergeChunks (a b : Chunk) : Option Chunk :=
  if a.state = ChunkState.Free ∧ b.state = ChunkState.Free ∧
     a.level = b.level ∧ 0 < a.level ∧
     b.base = a.base + chunkWordSize a.level ∧
     a.base % chunkWordSize (a.level - 1) = 0 then
    some { level := a.level - 1, base := a.base, state := ChunkState.Free }
  else none

/-! MetaspaceArena and the test arena (spec-modelled front end) -/

/-- Modelled from the spec: an arena-local free block, a deallocated span
indexed by size for best-fit-or-larger recycling. -/
structure FreeBlock where
  base : Nat
  word_size : Nat
deriving DecidableEq, Repr

/-- Modelled from the spec: a leftover smaller than the minimum useful size
is absorbed as waste instead of being returned to the free-block list. -/
def MIN_USEFUL_BLOCK_SIZE : Nat := 2

/-- Modelled from the spec: MetaspaceArena state (metaspaceArena.hpp/.cpp are
not in the repository excerpt): the free-block list, the bump pointer and
limit of the committed space of the current chunk, and the share this arena has in
used-words UsageCounter (incremented on successful allocation, decremented
on deallocation). -/
structure MetaspaceArena where
  fbl : List FreeBlock
  current_base : Nat
  current_end : Nat
  used_words_counter : Nat
deriving DecidableEq, Repr

/-- Best-fit-or-larger selection step: keep the smallest block whose size is
at least `w`. -/
def betterFit (w : Nat) (best : Option FreeBlock) (b : FreeBlock) :
    Option FreeBlock :=
  if b.word_size < w then best
  else
    match best with
    | none => some b
    | some c => if b.word_size < c.word_size then some b else some c

/-- Modelled from the spec: search the free-block list for a block of size at
least `w`, best fit first. -/
def findFit (fbl : List FreeBlock) (w : Nat) : Option FreeBlock :=
  fbl.foldl (betterFit w) none

/-- Removes the first occurrence of a block from the free-block list. -/
def removeBlock : List FreeBlock → FreeBlock → List FreeBlock
  | [], _ => []
  | b :: t, x => if b = x then t else b :: removeBlock t x

/-- Modelled from the spec: `MetaspaceArena::allocate(word_size)`
(only declared via the forwarding wrapper in metaspace_test.cpp lines
55-57). A requested size of zero is rejected as a usage error. Otherwise:
(1) serve from the free-block list if a block of at least the requested size
exists, returning any sufficiently large leftover to the list; (2) else bump
from the committed space of the current chunk; (3) else the allocation fails
(as it does when the ChunkManager cannot supply a fresh chunk). On success
the used-words counter grows by the allocated word count. Returns the new
arena state and the address of the allocation, or `none` on failure. -/
def MetaspaceArena.allocate (a : MetaspaceArena) (word_size : Nat) :
    Option (MetaspaceArena × Nat) :=
  if word_size = 0 then none
  else
    match findFit a.fbl word_size with
    | some b =>
      let rest := b.word_size - word_size
      let fbl2 := removeBlock a.fbl b
      let fbl3 :=
        if MIN_USEFUL_BLOCK_SIZE ≤ rest then
          { base := b.base + word_size, word_size := rest } :: fbl2
        else fbl2
      some ({ a with
                fbl := fbl3,
                used_words_counter := a.used_words_counter + word_size },
            b.base)
    | none =>
      if a.current_base + word_size ≤ a.current_end then
        some ({ a with
                  current_base := a.current_base + word_size,
                  used_words_counter := a.used_words_counter + word_size },
              a.current_base)
      else none

/-- Modelled from the spec: `MetaspaceArena::deallocate(p, word_size)` puts
the span back on the free-block list and decrements the used-words
counter. -/
def MetaspaceArena.deallocate (a : MetaspaceArena) (p word_size : Nat) :
    MetaspaceArena :=
  { a with
      fbl := { base := p, word_size := word_size } :: a.fbl,
      used_words_counter := a.used_words_counter - word_size }

/-- Embeds `MetaspaceTestArena` (metaspace_test.cpp lines 47-61): a wrapper
holding the arena. -/
structure MetaspaceTestArena where
  arena : MetaspaceArena
deriving DecidableEq, Repr

/-- Embeds `MetaspaceTestArena::allocate` (metaspace_test.cpp lines 55-57):
forwards to the wrapped arena. -/
def MetaspaceTestArena.allocate (t : MetaspaceTestArena) (word_size : Nat) :
    Option (MetaspaceArena × Nat) :=
  t.arena.allocate word_size

/-! Sample values, used to exercise the development on concrete data -/

/-- A concrete representable `InUseChunkStats` value satisfying the
statistics invariant. -/
def sampleIU : InUseChunkStats :=
  { num := 5, word_size := 10, committed_words := 7,
    used_words := 3, free_words := 2, waste_words := 2 }

/-- A concrete representable `ArenaStats` value. -/
def sampleArena : ArenaStats :=
  { stats := fun _ => sampleIU, free_blocks_num := 4,
    free_blocks_word_size := 9 }

/-- A concrete representable `ClmsStats` value. -/
def sampleClms : ClmsStats :=
  { arena_stats_nonclass := sampleArena, arena_stats_class := sampleArena }

/-! Helper lemmas -/

/-- `InUseChunkStats.add` evaluated when the word sizes do not overflow:
every field is the plain component-wise sum, and the invariant is
preserved. -/
theorem InUseChunkStats.add_spec (s o : InUseChunkStats)
    (hs : s.invariant) (ho : o.invariant)
    (hw : s.word_size + o.word_size < sizeTMod) :
    (s.add o).invariant ∧
    (s.add o).num = s.num + o.num ∧
    (s.add o).word_size = s.word_size + o.word_size ∧
    (s.add o).committed_words = s.committed_words + o.committed_words ∧
    (s.add o).used_words = s.used_words + o.used_words ∧
    (s.add o).free_words = s.free_words + o.free_words ∧
    (s.add o).waste_words = s.waste_words + o.waste_words := by
  obtain ⟨hs1, hs2⟩ := hs
  obtain ⟨ho1, ho2⟩ := ho
  have hc : s.committed_words + o.committed_words < sizeTMod := by omega
  have hu : s.used_words + o.used_words < sizeTMod := by omega
  have hf : s.free_words + o.free_words < sizeTMod := by omega
  have hwa : s.waste_words + o.waste_words < sizeTMod := by omega
  simp only [InUseChunkStats.add, InUseChunkStats.invariant,
    Nat.mod_eq_of_lt hw, Nat.mod_eq_of_lt hc, Nat.mod_eq_of_lt hu,
    Nat.mod_eq_of_lt hf, Nat.mod_eq_of_lt hwa]
  refine ⟨⟨by omega, by omega⟩, ?_, ?_, ?_, ?_, ?_, ?_⟩ <;> trivial

/-- The zero-initialised record satisfies the statistics invariant. -/
theorem InUseChunkStats.init_invariant : InUseChunkStats.init.invariant := by
  constructor <;> rfl

/-- The stats record contributed by a well-formed chunk snapshot satisfies
the statistics invariant. -/
theorem ChunkSnapshot.toStats_invariant (c : ChunkSnapshot) (h : c.wf) :
    c.toStats.invariant := by
  exact ⟨rfl, h⟩

/-- Aggregation loop: folding well-formed chunk snapshots onto an
invariant-satisfying accumulator preserves the invariant and adds up the
word sizes exactly, as long as the total word size fits in `size_t`. -/
theorem aggregate_loop (l : List ChunkSnapshot) :
    ∀ acc : InUseChunkStats, acc.invariant →
      acc.word_size + (l.map ChunkSnapshot.word_size).sum < sizeTMod →
      (∀ c ∈ l, c.wf) →
      (l.foldl (fun a c => a.add c.toStats) acc).invariant ∧
      (l.foldl (fun a c => a.add c.toStats) acc).word_size
        = acc.word_size + (l.map ChunkSnapshot.word_size).sum := by
  induction l with
  | nil =>
    intro acc hinv _ _
    exact ⟨hinv, by simp⟩
  | cons c t ih =>
    intro acc hinv hbound hwf
    have hcw : c.wf := hwf c (by simp)
    have hstep : acc.word_size + c.toStats.word_size < sizeTMod := by
      simp only [List.map_cons, List.sum_cons] at hbound
      simp only [ChunkSnapshot.toStats]
      omega
    obtain ⟨hinv2, _, hws2, _⟩ :=
      InUseChunkStats.add_spec acc c.toStats hinv
        (ChunkSnapshot.toStats_invariant c hcw) hstep
    have hbound2 : (acc.add c.toStats).word_size
        + (t.map ChunkSnapshot.word_size).sum < sizeTMod := by
      rw [hws2]
      simp only [List.map_cons, List.sum_cons] at hbound
      simp only [ChunkSnapshot.toStats]
      omega
    have hwf2 : ∀ x ∈ t, x.wf := fun x hx => hwf x (by simp [hx])
    obtain ⟨h1, h2⟩ := ih (acc.add c.toStats) hinv2 hbound2 hwf2
    refine ⟨by simpa using h1, ?_⟩
    simp only [List.foldl_cons, List.map_cons, List.sum_cons]
    rw [h2, hws2]
    simp only [ChunkSnapshot.toStats]
    omega

/-- Adding the zero-initialised record to a representable record leaves it
unchanged. -/
theorem InUseChunkStats.add_init_iu (s : InUseChunkStats) (h : s.sizeTValued) :
    s.add InUseChunkStats.init = s := by
  obtain ⟨h1, h2, h3, h4, h5⟩ := h
  ext <;>
    simp [InUseChunkStats.add, InUseChunkStats.init, Nat.mod_eq_of_lt,
      h1, h2, h3, h4, h5]

/-- Adding the zero-initialised arena statistics to a representable one
leaves it unchanged. -/
theorem ArenaStats.add_init_arena (a : ArenaStats) (h : a.sizeTValued) :
    a.add ArenaStats.init = a := by
  obtain ⟨h1, h2, h3⟩ := a
  obtain ⟨g1, g2, g3⟩ := h
  simp only [ArenaStats.add, ArenaStats.init]
  congr 1
  · funext i
    exact InUseChunkStats.add_init_iu (h1 i) (g1 i)
  · exact Nat.mod_eq_of_lt g2
  · exact Nat.mod_eq_of_lt g3

/-- Adding the zero-initialised class-loader statistics to a representable
one leaves it unchanged. -/
theorem ClmsStats.add_init_clms (c : ClmsStats) (h : c.sizeTValued) :
    c.add ClmsStats.init = c := by
  obtain ⟨c1, c2⟩ := c
  obtain ⟨g1, g2⟩ := h
  simp only [ClmsStats.add, ClmsStats.init]
  congr 1
  · exact ArenaStats.add_init_arena c1 g1
  · exact ArenaStats.add_init_arena c2 g2

/-! Claim C1 -/

/-- C1: every `InUseChunkStats` value produced by the statistics API — the
aggregation of well-formed chunk snapshots whose total word size fits in the
virtual address space — satisfies `committed_words = used_words + free_words
+ waste_words` and `word_size ≥ committed_words`. -/
theorem c1_produced_stats_invariant (l : List ChunkSnapshot)
    (hwf : ∀ c ∈ l, c.wf)
    (hbound : (l.map ChunkSnapshot.word_size).sum ≤ maxAddressSpaceWords) :
    (aggregateStats l).invariant := by
  have hlt : (l.map ChunkSnapshot.word_size).sum < sizeTMod := by
    have : maxAddressSpaceWords < sizeTMod := by
      norm_num [maxAddressSpaceWords, sizeTMod]
    omega
  have h := aggregate_loop l InUseChunkStats.init
    InUseChunkStats.init_invariant (by simpa [InUseChunkStats.init] using hlt)
    hwf
  exact h.1

/-- Witness for C1: a concrete two-chunk aggregation satisfies the
hypotheses, and the theorem yields the invariant of its aggregate. -/
theorem c1_witness :
    (∀ c ∈ [ChunkSnapshot.mk 100 10 5 1, ChunkSnapshot.mk 50 0 0 0], c.wf) ∧
    ([ChunkSnapshot.mk 100 10 5 1,
        ChunkSnapshot.mk 50 0 0 0].map ChunkSnapshot.word_size).sum
      ≤ maxAddressSpaceWords ∧
    (aggregateStats
      [ChunkSnapshot.mk 100 10 5 1, ChunkSnapshot.mk 50 0 0 0]).invariant := by
  refine ⟨by decide, by decide,
    c1_produced_stats_invariant _ (by decide) (by decide)⟩

/-! Claim C9 -/

/-- C9 as stated is refuted: two `InUseChunkStats` values that each satisfy
the invariant, whose sum under `InUseChunkStats::add` (wrapping `size_t`
arithmetic) violates `word_size ≥ committed_words`. -/
theorem c9_counterexample :
    (InUseChunkStats.mk 0 (2 ^ 64 - 1) 0 0 0 0).invariant ∧
    (InUseChunkStats.mk 0 1 1 1 0 0).invariant ∧
    ¬ ((InUseChunkStats.mk 0 (2 ^ 64 - 1) 0 0 0 0).add
        (InUseChunkStats.mk 0 1 1 1 0 0)).invariant := by
  refine ⟨by decide, by decide, by decide⟩

/-- C9 amended: `InUseChunkStats::add` sums every field component-wise in
wrapping `size_t` arithmetic; whenever the two word sizes sum to a
representable value (no overflow), the sum of two invariant-satisfying
values is their exact component-wise sum and satisfies both relations. -/
theorem c9_add_preserves_invariant (s o : InUseChunkStats)
    (hs : s.invariant) (ho : o.invariant)
    (hw : s.word_size + o.word_size < sizeTMod) :
    (s.add o).invariant ∧
    (s.add o).num = s.num + o.num ∧
    (s.add o).word_size = s.word_size + o.word_size ∧
    (s.add o).committed_words = s.committed_words + o.committed_words ∧
    (s.add o).used_words = s.used_words + o.used_words ∧
    (s.add o).free_words = s.free_words + o.free_words ∧
    (s.add o).waste_words = s.waste_words + o.waste_words :=
  InUseChunkStats.add_spec s o hs ho hw

/-- Witness for C9: the amended theorem applied to two small concrete
invariant-satisfying values. -/
theorem c9_witness :
    (InUseChunkStats.mk 1 100 20 10 6 4).invariant ∧
    (InUseChunkStats.mk 2 50 7 5 2 0).invariant ∧
    (100 : Nat) + 50 < sizeTMod ∧
    ((InUseChunkStats.mk 1 100 20 10 6 4).add
      (InUseChunkStats.mk 2 50 7 5 2 0)).invariant := by
  refine ⟨by decide, by decide, by decide,
    (c9_add_preserves_invariant _ _ (by decide) (by decide) (by decide)).1⟩

/-! Claim C10 -/

/-- C10: the default constructors of `InUseChunkStats`, `ArenaStats` and
`ClmsStats` zero every counter field, and the default-constructed value is a
right identity of the corresponding `add` for every representable value. -/
theorem c10_default_zero_and_right_identity :
    (InUseChunkStats.init.num = 0 ∧ InUseChunkStats.init.word_size = 0 ∧
     InUseChunkStats.init.committed_words = 0 ∧
     InUseChunkStats.init.used_words = 0 ∧
     InUseChunkStats.init.free_words = 0 ∧
     InUseChunkStats.init.waste_words = 0) ∧
    ((∀ i, ArenaStats.init.stats i = InUseChunkStats.init) ∧
     ArenaStats.init.free_blocks_num = 0 ∧
     ArenaStats.init.free_blocks_word_size = 0) ∧
    (ClmsStats.init.arena_stats_nonclass = ArenaStats.init ∧
     ClmsStats.init.arena_stats_class = ArenaStats.init) ∧
    (∀ s : InUseChunkStats, s.sizeTValued →
      s.add InUseChunkStats.init = s) ∧
    (∀ a : ArenaStats, a.sizeTValued → a.add ArenaStats.init = a) ∧
    (∀ c : ClmsStats, c.sizeTValued → c.add ClmsStats.init = c) := by
  refine ⟨⟨rfl, rfl, rfl, rfl, rfl, rfl⟩, ⟨fun _ => rfl, rfl, rfl⟩,
    ⟨rfl, rfl⟩, InUseChunkStats.add_init_iu, ArenaStats.add_init_arena,
    ClmsStats.add_init_clms⟩

/-- Witness for C10: the right-identity components applied to concrete
representable statistics values. -/
theorem c10_witness :
    sampleIU.sizeTValued ∧ sampleIU.add InUseChunkStats.init = sampleIU ∧
    sampleArena.sizeTValued ∧ sampleArena.add ArenaStats.init = sampleArena ∧
    sampleClms.sizeTValued ∧ sampleClms.add ClmsStats.init = sampleClms := by
  refine ⟨by decide,
    c10_default_zero_and_right_identity.2.2.2.1 sampleIU (by decide),
    by decide,
    c10_default_zero_and_right_identity.2.2.2.2.1 sampleArena (by decide),
    by decide,
    c10_default_zero_and_right_identity.2.2.2.2.2 sampleClms (by decide)⟩

/-! Claim C2 -/

/-- C2 as stated is refuted: on a limiter with ceiling 0 (unlimited per the
spec), `try_commit 1` exceeds the literal ceiling yet succeeds instead of
returning false and leaving the state unchanged. -/
theorem c2_counterexample :
    (CommitLimiter.mk 0 0).cap < (CommitLimiter.mk 0 0).committed_words + 1 ∧
    ((CommitLimiter.mk 0 0).try_commit 1).2 = true ∧
    ((CommitLimiter.mk 0 0).try_commit 1).1 ≠ CommitLimiter.mk 0 0 := by
  refine ⟨by decide, by decide, by decide⟩

/-- C2 amended: for a limiter with nonzero ceiling, `try_commit` compares
current-committed + words against the ceiling, increments and returns true
when the ceiling is not exceeded, and otherwise returns false leaving the
state unchanged; a zero ceiling means unlimited, so `try_commit` then always
increments and succeeds. -/
theorem c2_try_commit_spec (cl : CommitLimiter) (words : Nat) :
    (cl.cap ≠ 0 →
      (cl.committed_words + words ≤ cl.cap →
        cl.try_commit words =
          ({ cl with committed_words := cl.committed_words + words }, true)) ∧
      (cl.cap < cl.committed_words + words →
        cl.try_commit words = (cl, false))) ∧
    (cl.cap = 0 →
      cl.try_commit words =
        ({ cl with committed_words := cl.committed_words + words }, true)) := by
  unfold CommitLimiter.try_commit
  refine ⟨fun hcap => ⟨fun hle => ?_, fun hgt => ?_⟩, fun hcap => ?_⟩
  · rw [if_pos (Or.inr hle)]
  · rw [if_neg ?_]
    intro h
    rcases h with h | h
    · exact hcap h
    · omega
  · rw [if_pos (Or.inl hcap)]

/-- Witness for C2: the amended theorem applied to a successful commit, a
rejected commit, and an unlimited (zero-ceiling) commit. -/
theorem c2_witness :
    (CommitLimiter.mk 3 10).try_commit 5 = (CommitLimiter.mk 8 10, true) ∧
    (CommitLimiter.mk 3 10).try_commit 8 = (CommitLimiter.mk 3 10, false) ∧
    (CommitLimiter.mk 3 0).try_commit 7 = (CommitLimiter.mk 10 0, true) := by
  refine ⟨((c2_try_commit_spec (CommitLimiter.mk 3 10) 5).1
      (by decide)).1 (by decide),
    ((c2_try_commit_spec (CommitLimiter.mk 3 10) 8).1 (by decide)).2
      (by decide),
    (c2_try_commit_spec (CommitLimiter.mk 3 0) 7).2 rfl⟩

/-! Claim C3 -/

/-- C3: the test context is non-expandable over a single reservation of
exactly `reserve_limit` words when `reserve_limit > 0`, and expandable when
`reserve_limit = 0` (metaspace_test.cpp lines 65-81). -/
theorem c3_context_construction (name : String)
    (commit_limit reserve_limit : Nat) :
    (0 < reserve_limit →
      (mkMetaspaceTestContext name commit_limit reserve_limit).context
        = MetaspaceContext.mk false [reserve_limit]) ∧
    (reserve_limit = 0 →
      (mkMetaspaceTestContext name commit_limit reserve_limit).context
        = MetaspaceContext.mk true []) := by
  unfold mkMetaspaceTestContext MetaspaceContext.create_nonexpandable_context
    MetaspaceContext.create_expandable_context
  constructor
  · intro h
    rw [if_pos h]
    simp only [MetaspaceContext.mk.injEq, List.cons.injEq, and_true, true_and]
    simp [BytesPerWord]
  · intro h
    subst h
    rfl

/-- Witness for C3: the theorem applied to a bounded and to an expandable
concrete construction. -/
theorem c3_witness :
    (mkMetaspaceTestContext "bounded" 0 4096).context
      = MetaspaceContext.mk false [4096] ∧
    (mkMetaspaceTestContext "open" 7 0).context
      = MetaspaceContext.mk true [] := by
  refine ⟨(c3_context_construction "bounded" 0 4096).1 (by decide),
    (c3_context_construction "open" 7 0).2 rfl⟩

/-! Claim C4 -/

/-- Commit-sequence loop: when the whole sequence fits under the ceiling,
every `try_commit` succeeds and the committed counter accumulates the
exact sum. -/
theorem runCommits_loop (l : List Nat) :
    ∀ (cl : CommitLimiter) (ok : Bool),
      cl.committed_words + l.sum ≤ cl.cap →
      l.foldl commitStep (cl, ok)
        = ({ cl with committed_words := cl.committed_words + l.sum }, ok) := by
  induction l with
  | nil =>
    intro cl ok _
    simp
  | cons w t ih =>
    intro cl ok hle
    simp only [List.sum_cons] at hle
    have hstep : commitStep (cl, ok) w
        = ({ cl with committed_words := cl.committed_words + w }, ok) := by
      show ((cl.try_commit w).1, ok && (cl.try_commit w).2) = _
      unfold CommitLimiter.try_commit
      rw [if_pos (Or.inr (show cl.committed_words + w ≤ cl.cap by omega))]
      simp
    simp only [List.foldl_cons, hstep]
    rw [ih _ ok (by simp only [List.sum_cons]; omega)]
    simp only [List.sum_cons]
    congr 1
    · congr 1
      omega

/-- C4 as stated is refuted: the context built with `commit_limit = 0` gets
a limiter with the finite ceiling `max_uintx`, so after committing
`max_uintx` words a further `try_commit 1` is rejected. -/
theorem c4_counterexample :
    (mkMetaspaceTestContext "t" 0 0).commit_limiter.cap = max_uintx ∧
    (((mkMetaspaceTestContext "t" 0 0).commit_limiter.try_commit
        max_uintx).1.try_commit 1).2 = false := by
  refine ⟨rfl, by decide⟩

/-- C4 amended: with `commit_limit = 0` the ceiling of the constructed limiter is
`max_uintx = 2 ^ 64 - 1` rather than literally unlimited; no `try_commit` in
a sequence is rejected as long as the cumulative committed words stay at
most `max_uintx`. -/
theorem c4_unlimited_commit (name : String) (reserve_limit : Nat)
    (l : List Nat) (h : l.sum ≤ max_uintx) :
    ((mkMetaspaceTestContext name 0 reserve_limit).commit_limiter.runCommits
        l).2 = true ∧
    ((mkMetaspaceTestContext name 0 reserve_limit).commit_limiter.runCommits
        l).1.committed_words = l.sum := by
  have hcl : (mkMetaspaceTestContext name 0 reserve_limit).commit_limiter
      = CommitLimiter.mk 0 max_uintx := rfl
  unfold CommitLimiter.runCommits
  rw [hcl, runCommits_loop l (CommitLimiter.mk 0 max_uintx) true
    (by simpa using h)]
  exact ⟨rfl, by simp⟩

/-- Witness for C4: a concrete commit sequence below the ceiling all
succeeds and accumulates its sum. -/
theorem c4_witness :
    ([5, 10, 100].sum ≤ max_uintx) ∧
    ((mkMetaspaceTestContext "t" 0 0).commit_limiter.runCommits
        [5, 10, 100]).2 = true ∧
    ((mkMetaspaceTestContext "t" 0 0).commit_limiter.runCommits
        [5, 10, 100]).1.committed_words = 115 := by
  refine ⟨by decide, (c4_unlimited_commit "t" 0 [5, 10, 100] (by decide)).1,
    (c4_unlimited_commit "t" 0 [5, 10, 100] (by decide)).2⟩

/-! Claim C5 -/

/-- Chunk-request loop: starting from a state whose accounting is within the
reservation, the reservation limit never changes, the used-reserved and
committed totals never exceed it, and an all-successful run accumulates
exactly the requested sum. -/
theorem nonexp_run_loop (l : List Nat) :
    ∀ (sp : NonExpandableSpace) (ok : Bool),
      sp.used_reserved_words ≤ sp.reserve_limit →
      sp.committed_words ≤ sp.used_reserved_words →
      (l.foldl requestStep (sp, ok)).1.reserve_limit = sp.reserve_limit ∧
      (l.foldl requestStep (sp, ok)).1.used_reserved_words
        ≤ sp.reserve_limit ∧
      (l.foldl requestStep (sp, ok)).1.committed_words
        ≤ (l.foldl requestStep (sp, ok)).1.used_reserved_words ∧
      ((l.foldl requestStep (sp, ok)).2 = true →
        ok = true ∧
        (l.foldl requestStep (sp, ok)).1.used_reserved_words
          = sp.used_reserved_words + l.sum) := by
  induction l with
  | nil =>
    intro sp ok h1 h2
    exact ⟨rfl, h1, h2, fun h => ⟨h, by simp⟩⟩
  | cons w t ih =>
    intro sp ok h1 h2
    by_cases hc : sp.used_reserved_words + w ≤ sp.reserve_limit
    · have hstep : requestStep (sp, ok) w
          = ({ sp with
                used_reserved_words := sp.used_reserved_words + w,
                committed_words := sp.committed_words + w }, ok) := by
        show ((sp.request_chunk w).1, ok && (sp.request_chunk w).2) = _
        unfold NonExpandableSpace.request_chunk
        rw [if_pos hc]
        simp
      simp only [List.foldl_cons, hstep]
      obtain ⟨g1, g2, g3, g4⟩ := ih
        { sp with
            used_reserved_words := sp.used_reserved_words + w,
            committed_words := sp.committed_words + w } ok hc (by simp; omega)
      refine ⟨g1, by simpa using g2, g3, fun hflag => ?_⟩
      obtain ⟨hok, hsum⟩ := g4 hflag
      refine ⟨hok, ?_⟩
      rw [hsum]
      simp only [List.sum_cons]
      omega
    · have hstep : requestStep (sp, ok) w = (sp, false) := by
        show ((sp.request_chunk w).1, ok && (sp.request_chunk w).2) = _
        unfold NonExpandableSpace.request_chunk
        rw [if_neg hc]
        simp
      simp only [List.foldl_cons, hstep]
      obtain ⟨g1, g2, g3, g4⟩ := ih sp false h1 h2
      exact ⟨g1, g2, g3, fun hflag => absurd (g4 hflag).1 (by simp)⟩

/-- C5: a non-expandable context over `R` reserved words never lets the
used-reserved or committed totals exceed `R`; any request sequence whose
cumulative size exceeds `R` has a failing request; and a request fails
exactly when it does not fit in the remaining reservation (so failure is
deterministic once the reservation is exhausted). -/
theorem c5_nonexpandable_exhaustion (R : Nat) (l : List Nat) :
    ((NonExpandableSpace.init R).run l).1.used_reserved_words ≤ R ∧
    ((NonExpandableSpace.init R).run l).1.committed_words ≤ R ∧
    (R < l.sum → ((NonExpandableSpace.init R).run l).2 = false) ∧
    (∀ s : Nat,
      ((((NonExpandableSpace.init R).run l).1.request_chunk s).2 = true ↔
        ((NonExpandableSpace.init R).run l).1.used_reserved_words + s ≤ R)) := by
  obtain ⟨g1, g2, g3, g4⟩ := nonexp_run_loop l (NonExpandableSpace.init R)
    true (Nat.zero_le R) (Nat.le_refl 0)
  have hrun : (NonExpandableSpace.init R).run l
      = l.foldl requestStep (NonExpandableSpace.init R, true) := rfl
  rw [hrun]
  refine ⟨g2, le_trans g3 g2, fun hR => ?_, fun s => ?_⟩
  · cases hflag : (l.foldl requestStep (NonExpandableSpace.init R, true)).2 with
    | false => rfl
    | true =>
      exfalso
      obtain ⟨-, hsum⟩ := g4 hflag
      simp only [NonExpandableSpace.init] at g2 hsum
      omega
  · unfold NonExpandableSpace.request_chunk
    rw [g1]
    by_cases hfit :
        (l.foldl requestStep (NonExpandableSpace.init R, true)).1.used_reserved_words
          + s ≤ (NonExpandableSpace.init R).reserve_limit
    · rw [if_pos hfit]
      simpa [NonExpandableSpace.init] using hfit
    · rw [if_neg hfit]
      simp only [NonExpandableSpace.init] at hfit ⊢
      simpa using hfit

/-- Witness for C5: requesting 60 + 60 words from a 100-word reservation
fails, and the totals stay within 100. -/
theorem c5_witness :
    (100 : Nat) < [60, 60].sum ∧
    ((NonExpandableSpace.init 100).run [60, 60]).2 = false ∧
    ((NonExpandableSpace.init 100).run [60, 60]).1.used_reserved_words
      ≤ 100 := by
  refine ⟨by decide, (c5_nonexpandable_exhaustion 100 [60, 60]).2.2.1
    (by decide), (c5_nonexpandable_exhaustion 100 [60, 60]).1⟩

/-! Claim C6 -/

/-- C6: splitting a free, size-aligned chunk of a splittable level and
immediately merging the two children reproduces the original chunk — same
level, same base, same address range, still free. -/
theorem c6_split_merge_roundtrip (c : Chunk)
    (hfree : c.state = ChunkState.Free)
    (hlevel : c.level < HIGHEST_CHUNK_LEVEL)
    (halign : c.base % chunkWordSize c.level = 0) :
    (splitChunk c).bind (fun p => mergeChunks p.1 p.2) = some c := by
  obtain ⟨l, b, st⟩ := c
  simp only at hfree hlevel halign
  subst hfree
  unfold splitChunk
  rw [if_pos (show (Chunk.mk l b ChunkState.Free).state = ChunkState.Free ∧
      (Chunk.mk l b ChunkState.Free).level < HIGHEST_CHUNK_LEVEL from
    ⟨rfl, hlevel⟩)]
  show mergeChunks
      { level := l + 1, base := b, state := ChunkState.Free }
      { level := l + 1, base := b + chunkWordSize (l + 1),
        state := ChunkState.Free }
    = some { level := l, base := b, state := ChunkState.Free }
  unfold mergeChunks
  rw [if_pos ⟨rfl, rfl, rfl, Nat.succ_pos l, rfl, by
    simpa [Nat.add_sub_cancel] using halign⟩]
  simp [Nat.add_sub_cancel]

/-- Witness for C6: a concrete free level-3 chunk at an aligned base makes
the split/merge round trip. -/
theorem c6_witness :
    (Chunk.mk 3 327680 ChunkState.Free).state = ChunkState.Free ∧
    (Chunk.mk 3 327680 ChunkState.Free).level < HIGHEST_CHUNK_LEVEL ∧
    (Chunk.mk 3 327680 ChunkState.Free).base
      % chunkWordSize (Chunk.mk 3 327680 ChunkState.Free).level = 0 ∧
    (splitChunk (Chunk.mk 3 327680 ChunkState.Free)).bind
        (fun p => mergeChunks p.1 p.2)
      = some (Chunk.mk 3 327680 ChunkState.Free) := by
  refine ⟨rfl, by decide, by decide,
    c6_split_merge_roundtrip (Chunk.mk 3 327680 ChunkState.Free) rfl
      (by decide) (by decide)⟩

/-! Claim C7 -/

/-- C7: a successful allocation of `w` words followed by deallocating the
same span returns the used-words usage counter to exactly its value before
the allocation. -/
theorem c7_alloc_dealloc_counter (a a2 : MetaspaceArena) (w p : Nat)
    (h : a.allocate w = some (a2, p)) :
    (a2.deallocate p w).used_words_counter = a.used_words_counter := by
  unfold MetaspaceArena.allocate at h
  by_cases hw : w = 0
  · rw [if_pos hw] at h
    exact absurd h (by simp)
  · rw [if_neg hw] at h
    cases hf : findFit a.fbl w with
    | some b =>
      rw [hf] at h
      simp only [Option.some.injEq, Prod.mk.injEq] at h
      obtain ⟨ha2, -⟩ := h
      rw [← ha2]
      unfold MetaspaceArena.deallocate
      simp
    | none =>
      rw [hf] at h
      by_cases hb : a.current_base + w ≤ a.current_end
      · rw [if_pos hb] at h
        simp only [Option.some.injEq, Prod.mk.injEq] at h
        obtain ⟨ha2, -⟩ := h
        rw [← ha2]
        unfold MetaspaceArena.deallocate
        simp
      · rw [if_neg hb] at h
        exact absurd h (by simp)

/-- Witness for C7: a concrete bump allocation of 10 words and its
deallocation restore the counter to 50. -/
theorem c7_witness :
    (MetaspaceArena.mk [] 0 100 50).allocate 10
      = some (MetaspaceArena.mk [] 10 100 60, 0) ∧
    ((MetaspaceArena.mk [] 10 100 60).deallocate 0 10).used_words_counter
      = 50 := by
  refine ⟨by decide,
    c7_alloc_dealloc_counter (MetaspaceArena.mk [] 0 100 50)
      (MetaspaceArena.mk [] 10 100 60) 10 0 (by decide)⟩

/-! Claim C8 -/

/-- C8: for every arena state, requesting zero words through the test
arena operation `allocate` is rejected: it returns failure (`none`), never a valid
address, and never silently succeeds. -/
theorem c8_zero_allocation_rejected (t : MetaspaceTestArena) :
    t.allocate 0 = none := rfl

end Metaspace
